import Mathlib

/-!
Verification development for the NHL game-day-thread template updater
(source: nhl_gdt_updater.py).  The pure computational core of the program
is embedded shallowly: buffers are lists of characters, the regular
expressions of the source are embedded as explicit executable matchers for
the exact patterns the source compiles, and the network layer is
represented by optional values passed in as parameters (a fetch that
failed is `none`).
-/

/-! ## Basic character and string utilities

The source works on Python `str`; we embed buffers as `List Char` and use
ASCII case mapping (`Char.toLower` / `Char.toUpper`), which agrees with
Python on every character the program manipulates. -/

abbrev Buf := List Char

def lowerBuf (l : Buf) : Buf := l.map Char.toLower

def upperBuf (l : Buf) : Buf := l.map Char.toUpper

/-- Python str.capitalize: first character uppercased, the rest lowercased. -/
def capitalizeBuf : Buf → Buf
  | [] => []
  | c :: cs => c.toUpper :: cs.map Char.toLower

/-- Python str.split(sep) for a single-character separator: consecutive
separators yield empty words and the result is never empty. -/
def splitOnChar (sep : Char) : Buf → List Buf
  | [] => [[]]
  | c :: rest =>
    match splitOnChar sep rest with
    | [] => [[c]]
    | w :: ws => if c = sep then [] :: w :: ws else (c :: w) :: ws

/-- Join a list of words with a separator buffer (Python sep.join). -/
def joinWith (sep : Buf) : List Buf → Buf
  | [] => []
  | [w] => w
  | w :: ws => w ++ sep ++ joinWith sep ws

/-- Python str.find for character lists: index of the first occurrence of
pat in l, none when absent (Python returns -1).  An empty pattern is found
at index 0, as in Python. -/
def findSub? (pat : Buf) : Buf → Option Nat
  | [] => if pat = [] then some 0 else none
  | c :: rest =>
    if pat.isPrefixOf (c :: rest) then some 0
    else (findSub? pat rest).map (· + 1)

/-- Python substring membership test (the `in` operator). -/
def containsSub (pat l : Buf) : Bool := (findSub? pat l).isSome

/-! ## Name Reconstructor (source: slug_to_name, lines 157-184)

The source walks the hyphen-separated words with an index.  A run of
single-character words is collapsed into dotted initials; a word starting
with mc (length > 2) or mac (length > 3) gets interior capitalization;
a standalone word equal to o would be merged with the next word as an
O-apostrophe name, but that branch is unreachable because a one-character
word is always consumed by the initials branch first; any other word is
capitalized naively.  The embedding reproduces the branch structure of the
source including the unreachable branch. -/

def apostropheChar : Char := Char.ofNat 39

def slugWordsToNamesF : Nat → List Buf → List Buf
  | 0, _ => []
  | _, [] => []
  | fuel + 1, w :: rest =>
    if w.length = 1 then
      -- initials branch: absorb the maximal following run of 1-char words
      let run := rest.takeWhile (fun x => x.length = 1)
      let rest' := rest.dropWhile (fun x => x.length = 1)
      (joinWith ['.'] ((w :: run).map upperBuf) ++ ['.']) ::
        slugWordsToNamesF fuel rest'
    else if "mc".data.isPrefixOf (lowerBuf w) ∧ w.length > 2 then
      ("Mc".data ++ capitalizeBuf (w.drop 2)) :: slugWordsToNamesF fuel rest
    else if "mac".data.isPrefixOf (lowerBuf w) ∧ w.length > 3 then
      ("Mac".data ++ capitalizeBuf (w.drop 3)) :: slugWordsToNamesF fuel rest
    else if lowerBuf w = ['o'] ∧ rest ≠ [] then
      -- dead in practice: a word of length 1 never reaches this test
      match rest with
      | n :: rest2 =>
        (['O', apostropheChar] ++ capitalizeBuf n) :: slugWordsToNamesF fuel rest2
      | [] => [capitalizeBuf w]
    else
      capitalizeBuf w :: slugWordsToNamesF fuel rest

/-- Every step of the word loop consumes at least one word, so word-count
fuel always suffices; fuel only makes the recursion structural. -/
def slugWordsToNames (ws : List Buf) : List Buf :=
  slugWordsToNamesF ws.length ws

def slug_to_name (slug : String) : String :=
  String.mk (joinWith [' '] (slugWordsToNames (splitOnChar '-' slug.data)))

/-! ## Roster Scraper (source: get_line_combinations, lines 346-423)

The source extracts player slugs with the regular expression
href="/players/news/([a-zA-Z0-9-]+)/\d+".  Both quantified classes exclude
the character that must follow them, so the regex engine's greedy matching
is exactly maximal-munch; the embedded matcher below reproduces it, and a
fuel-indexed scanner reproduces finditer/findall (leftmost,
non-overlapping, resuming after each match). -/

def slugChar (c : Char) : Bool := c.isAlpha || c.isDigit || c == '-'

def matchPlayerAt (l : Buf) : Option (Buf × Nat) :=
  let pre := "href=\"/players/news/".data
  if pre.isPrefixOf l then
    let rest := l.drop pre.length
    let tok := rest.takeWhile slugChar
    if tok = [] then none
    else
      match rest.drop tok.length with
      | '/' :: rest3 =>
        let ds := rest3.takeWhile Char.isDigit
        if ds = [] then none
        else
          match rest3.drop ds.length with
          | '"' :: _ => some (tok, pre.length + tok.length + 1 + ds.length + 1)
          | _ => none
      | _ => none
  else none

def scanTokensF : Nat → Buf → List Buf
  | 0, _ => []
  | _, [] => []
  | fuel + 1, c :: rest =>
    match matchPlayerAt (c :: rest) with
    | some (tok, len) => tok :: scanTokensF fuel ((c :: rest).drop len)
    | none => scanTokensF fuel rest

/-- All captured player slugs, in document order (re.findall).  Every scan
step consumes at least one character, so length-based fuel suffices. -/
def playerTokens (l : Buf) : List Buf := scanTokensF (l.length + 1) l

/-- Case-insensitive first-seen deduplication (source lines 370-376): the
running seen set holds lowercased slugs and keeps growing; the function
returns the kept slugs (original casing) and the final seen set. -/
def dedupLoop (seen : List Buf) : List Buf → (List Buf × List Buf)
  | [] => ([], seen)
  | s :: rest =>
    if lowerBuf s ∈ seen then dedupLoop seen rest
    else
      let r := dedupLoop (lowerBuf s :: seen) rest
      (s :: r.1, r.2)

def slugToNameBuf (w : Buf) : String :=
  String.mk (joinWith [' '] (slugWordsToNames (splitOnChar '-' w)))

def appendAt (xss : List (List String)) (k : Nat) (x : String) : List (List String) :=
  xss.set k (xss.getD k [] ++ [x])

/-- Source lines 380-383: names at indices 0-11 are appended to forward
line index i / 3. -/
def buildForwards (names : List String) : List (List String) :=
  ((names.take 12).enum).foldl
    (fun acc p => if p.1 / 3 < 4 then appendAt acc (p.1 / 3) p.2 else acc)
    [[], [], [], []]

/-- Source lines 385-388: names at indices 12-17 are appended to defense
pair index i / 2 (i re-enumerated from 0 over the slice). -/
def buildDefense (names : List String) : List (List String) :=
  (((names.drop 12).take 6).enum).foldl
    (fun acc p => if p.1 / 2 < 3 then appendAt acc (p.1 / 2) p.2 else acc)
    [[], [], []]

/-- Source line 390: goalies are names[18:20] when more than 18 names. -/
def buildGoalies (names : List String) : List String :=
  if 18 < names.length then (names.drop 18).take 2 else []

structure InjuryEntry where
  name : String
  status : String
  detail : String
deriving DecidableEq, Repr

/-- Source lines 406-414: keyword priority inside the (lowercased) 500
character window.  The final elif assigns the same value as the initial
default, so the default and the last branch coincide. -/
def statusOf (nearby : Buf) : String :=
  if containsSub ">out<".data nearby || containsSub ">out ".data nearby then "OUT"
  else if containsSub ">dtd<".data nearby || containsSub "day-to-day".data nearby then "DTD"
  else if containsSub ">ltir<".data nearby then "LTIR"
  else if containsSub ">ir<".data nearby then "IR"
  else "IR"

/-- Source lines 398-421.  In Python the local variable status is only
assigned inside the positive-index branch, so on the other branches the
value left over from the previous iteration is reused; prev threads that
value.  (The branch is unreachable in practice: the injury section starts
with the marker character which is not a slug character, so a slug found
in it always sits at a positive offset; the initial value "IR" is
therefore never observable.) -/
def injuryLoop (rosterSeen : List Buf) (sect : Buf) :
    List Buf → List Buf → String → List InjuryEntry
  | [], _, _ => []
  | s :: rest, seenInj, prev =>
    let sl := lowerBuf s
    if sl ∈ seenInj ∨ sl ∈ rosterSeen then injuryLoop rosterSeen sect rest seenInj prev
    else
      let status :=
        match findSub? sl (lowerBuf sect) with
        | some idx =>
          if 0 < idx then statusOf (lowerBuf ((sect.drop idx).take 500)) else prev
        | none => prev
      ⟨slugToNameBuf s, status, "Undisclosed"⟩ ::
        injuryLoop rosterSeen sect rest (sl :: seenInj) status

structure LineCombos where
  forwards : List (List String)
  defense : List (List String)
  goalies : List String
  injuries : List InjuryEntry
deriving DecidableEq, Repr

/-- Source lines 366-367: the roster region is the page up to the marker
only when find returns a positive index; find(...) > 0 treats a marker at
offset 0 like an absent marker (Python find returns -1 for absent). -/
def rosterRegion (html : Buf) : Buf :=
  match findSub? ">Injuries<".data html with
  | some i => if 0 < i then html.take i else html
  | none => html

/-- Pure core of get_line_combinations on an already-fetched page.  Note
the source tests find(...) > 0, so a marker located at offset 0 is treated
like an absent marker for the roster region and suppresses the injuries
scan entirely. -/
def lineCombosOf (html : Buf) : LineCombos :=
  let dedup := dedupLoop [] (playerTokens (rosterRegion html))
  let names := dedup.1.map slugToNameBuf
  let injuries :=
    match findSub? ">Injuries<".data html with
    | some i =>
      if 0 < i then
        let sect := (html.drop i).take 10000
        injuryLoop dedup.2 sect (playerTokens sect) [] "IR"
      else []
    | none => []
  ⟨buildForwards names, buildDefense names, buildGoalies names, injuries⟩

def get_line_combinations (html : String) : LineCombos := lineCombosOf html.data

/-! ## Statistics Aggregator: league ranks (source: get_team_stats, lines 426-512)

Standings and team-summary payloads are embedded as records carrying
exactly the fields the function reads; a failed fetch is none.  Per-game
ratios are exact rationals (Python uses floats only as transport for the
same divisions).  The display rounding of lines 502-509 affects only the
formatted snapshot values, never the ranks, and is omitted. -/

structure StandingRow where
  teamAbbrev : String
  gamesPlayed : Nat
  goalFor : Nat
  goalAgainst : Nat
  goalDifferential : Int
deriving DecidableEq, Repr

structure SummaryRow where
  teamFullName : String
  powerPlayPct : ℚ
  penaltyKillPct : ℚ
deriving DecidableEq, Repr

def gfPerGame (t : StandingRow) : ℚ :=
  if 0 < t.gamesPlayed then (t.goalFor : ℚ) / (t.gamesPlayed : ℚ) else 0

def gaPerGame (t : StandingRow) : ℚ :=
  if 0 < t.gamesPlayed then (t.goalAgainst : ℚ) / (t.gamesPlayed : ℚ) else 0

/-- Source lines 455-470: one pass over the whole standings list,
incrementing each of the three rank counters (all starting at 1) whenever
the visited row is strictly better on that metric. -/
def rankLoop (diff : Int) (gfpg gapg : ℚ) (rows : List StandingRow) : Nat × Nat × Nat :=
  rows.foldl
    (fun acc t =>
      ((if diff < t.goalDifferential then acc.1 + 1 else acc.1),
       (if gfpg < gfPerGame t then acc.2.1 + 1 else acc.2.1),
       (if gaPerGame t < gapg then acc.2.2 + 1 else acc.2.2)))
    (1, 1, 1)

/-- Source lines 491-497: one pass over the summary list incrementing the
power-play and penalty-kill rank counters. -/
def ppPkLoop (pp pk : ℚ) (rows : List SummaryRow) : Nat × Nat :=
  rows.foldl
    (fun acc t =>
      ((if pp < t.powerPlayPct * 100 then acc.1 + 1 else acc.1),
       (if pk < t.penaltyKillPct * 100 then acc.2 + 1 else acc.2)))
    (1, 1)

structure TeamRateStats where
  diff : Int
  diff_rank : Nat
  gf_per_game : ℚ
  gf_rank : Nat
  ga_per_game : ℚ
  ga_rank : Nat
  pp_pct : ℚ
  pp_rank : Nat
  pk_pct : ℚ
  pk_rank : Nat
deriving DecidableEq, Repr

/-- Pure core of get_team_stats over already-fetched payloads.  The target
row is the first standings row whose abbreviation matches (lines 438-442);
absence of the standings payload or of the target row yields none (the
callers treat that as the fetch failure).  Power-play and penalty-kill
percentages come from the first summary row matching the full team name,
defaulting to 0 when absent, with ranks computed against the whole summary
list either way (lines 472-497). -/
def get_team_stats (standings : Option (List StandingRow))
    (summary : Option (List SummaryRow)) (abbr fullName : String) :
    Option (StandingRow × TeamRateStats) :=
  match standings with
  | none => none
  | some rows =>
    match rows.find? (fun t => t.teamAbbrev == abbr) with
    | none => none
    | some td =>
      let diff := td.goalDifferential
      let gf := gfPerGame td
      let ga := gaPerGame td
      let r := rankLoop diff gf ga rows
      let pks : ℚ × ℚ × Nat × Nat :=
        match summary with
        | some srows =>
          let pcts : ℚ × ℚ :=
            match srows.find? (fun s => s.teamFullName == fullName) with
            | some s => (s.powerPlayPct * 100, s.penaltyKillPct * 100)
            | none => ((0 : ℚ), (0 : ℚ))
          let pr := ppPkLoop pcts.1 pcts.2 srows
          (pcts.1, pcts.2, pr.1, pr.2)
        | none => ((0 : ℚ), (0 : ℚ), 1, 1)
      some (td, ⟨diff, r.1, gf, r.2.1, ga, r.2.2, pks.1, pks.2.2.1, pks.2.1, pks.2.2.2⟩)

/-! ## Statistics Aggregator: team leaders (source: get_team_leaders, lines 515-586)

The per-category scans share one loop shape (lines 535-548): a running
best value updated only on strict improvement, starting from a threshold
(-9999 for the counting stats, 0 for penalty minutes and ice time).  The
redundant plusMinus sub-branch of the source performs the identical
comparison and is collapsed.  Name/value formatting (lines 549-584) is
display-only and not modelled; the embedding exposes the chosen skaters. -/

structure Skater where
  firstName : String
  lastName : String
  positionCode : String
  goals : Int
  assists : Int
  points : Int
  plusMinus : Int
  penaltyMinutes : Int
  avgTimeOnIcePerGame : ℚ
deriving DecidableEq, Repr

def scanBest {α β : Type} [LinearOrder β] (f : α → β) (t0 : β) (l : List α) : Option α :=
  (l.foldl (fun acc p => if acc.2 < f p then (some p, f p) else acc)
    ((none : Option α), t0)).1

def chooseGoals (l : List Skater) : Option Skater := scanBest (fun p => p.goals) (-9999) l

def chooseAssists (l : List Skater) : Option Skater := scanBest (fun p => p.assists) (-9999) l

def choosePoints (l : List Skater) : Option Skater := scanBest (fun p => p.points) (-9999) l

def choosePlusMinus (l : List Skater) : Option Skater := scanBest (fun p => p.plusMinus) (-9999) l

def choosePim (l : List Skater) : Option Skater := scanBest (fun p => p.penaltyMinutes) 0 l

/-- Source lines 561-576: a single pass maintains the best defenseman and
the best non-defenseman by average ice time simultaneously. -/
def toiLoop (l : List Skater) : (Option Skater × ℚ) × (Option Skater × ℚ) :=
  l.foldl
    (fun acc p =>
      if p.positionCode == "D" then
        ((if acc.1.2 < p.avgTimeOnIcePerGame then (some p, p.avgTimeOnIcePerGame) else acc.1),
         acc.2)
      else
        (acc.1,
         (if acc.2.2 < p.avgTimeOnIcePerGame then (some p, p.avgTimeOnIcePerGame) else acc.2)))
    (((none : Option Skater), (0 : ℚ)), ((none : Option Skater), (0 : ℚ)))

def chooseToiD (l : List Skater) : Option Skater := (toiLoop l).1.1

def chooseToiF (l : List Skater) : Option Skater := (toiLoop l).2.1

structure LeadersChoice where
  goals : Option Skater
  assists : Option Skater
  points : Option Skater
  plusMinus : Option Skater
  pim : Option Skater
  toi_d : Option Skater
  toi_f : Option Skater
deriving DecidableEq, Repr

/-- Pure core of get_team_leaders: with no payload every leader keeps its
N/A default (modelled as none); otherwise each category is the scan above
over the skater list. -/
def get_team_leaders (data : Option (List Skater)) : LeadersChoice :=
  match data with
  | none => ⟨none, none, none, none, none, none, none⟩
  | some skaters =>
    ⟨chooseGoals skaters, chooseAssists skaters, choosePoints skaters,
     choosePlusMinus skaters, choosePim skaters, chooseToiD skaters, chooseToiF skaters⟩

/-- The running maximum of f over l, seeded with the threshold t0. -/
def maxFold {α β : Type} [LinearOrder β] (f : α → β) (t0 : β) (l : List α) : β :=
  l.foldl (fun acc p => max acc (f p)) t0

/-- Specification-side selector (spec 4.4: linear scan, strict comparison,
first index wins on ties): the first element attaining the maximum value,
provided that maximum exceeds the threshold. -/
def specSelect {α β : Type} [LinearOrder β] (f : α → β) (t0 : β) (l : List α) : Option α :=
  if t0 < maxFold f t0 l then l.find? (fun p => decide (f p = maxFold f t0 l)) else none

/-! ## Template Patch Engine: logo substitution (source: update_team_logos, lines 629-662)

The logo pattern (line 640, compiled with re.IGNORECASE) is
(data-src=")[^"]*(?:invisioncic\.com|blueshirtsbrotherhood\.com)[^"]*\.png[^"]*(").
After the literal head, every quantified class is [^"]*, so the whole
match always extends to the first following double quote; the body matches
exactly when the segment before that quote contains one of the host
literals followed (at or after its end) by .png.  Existence of such a pair
is equivalent to .png occurring at or after the earliest host-occurrence
end, which is what the matcher below tests. -/

def ciPrefix (pat l : Buf) : Bool := pat == lowerBuf (l.take pat.length)

def findHostEnd (seg : Buf) : Option Nat :=
  match findSub? "invisioncic.com".data seg, findSub? "blueshirtsbrotherhood.com".data seg with
  | some i, some j => some (min (i + 15) (j + 25))
  | some i, none => some (i + 15)
  | none, some j => some (j + 25)
  | none, none => none

/-- Length of the logo-pattern match starting at the head of l, if any. -/
def matchLogoAt (l : Buf) : Option Nat :=
  let pre := "data-src=\"".data
  if ciPrefix pre l then
    let rest := l.drop pre.length
    let seg := rest.takeWhile (fun c => c != '"')
    if seg.length < rest.length then
      let segL := lowerBuf seg
      match findHostEnd segL with
      | some p =>
        if containsSub ".png".data (segL.drop p) then some (pre.length + seg.length + 1)
        else none
      | none => none
    else none
  else none

def scanLogosF : Nat → Nat → Buf → List (Nat × Nat)
  | 0, _, _ => []
  | _, _, [] => []
  | fuel + 1, pos, c :: rest =>
    match matchLogoAt (c :: rest) with
    | some len => (pos, pos + len) :: scanLogosF fuel (pos + len) ((c :: rest).drop len)
    | none => scanLogosF fuel (pos + 1) rest

/-- All logo-pattern match spans (start, end), leftmost, non-overlapping. -/
def findLogoMatches (l : Buf) : List (Nat × Nat) := scanLogosF (l.length + 1) 0 l

/-- Source lines 650-655: matches at indices 0 and 2 are rewritten with
the first team's URL, 1 and 3 with the second team's; indices beyond 3 get
no replacement.  Group 1 of the pattern is the matched data-src=" head in
its original casing, group 2 the closing quote. -/
def logoReplacementsGo (content aUrl bUrl : Buf) : List (Nat × Nat × Nat) → List (Nat × Nat × Buf)
  | [] => []
  | (i, s, e) :: rest =>
    let grp1 := (content.drop s).take 10
    if i = 0 ∨ i = 2 then
      (s, e, grp1 ++ aUrl ++ ['"']) :: logoReplacementsGo content aUrl bUrl rest
    else if i = 1 ∨ i = 3 then
      (s, e, grp1 ++ bUrl ++ ['"']) :: logoReplacementsGo content aUrl bUrl rest
    else logoReplacementsGo content aUrl bUrl rest

def logoReplacements (content aUrl bUrl : Buf) (ms : List (Nat × Nat)) :
    List (Nat × Nat × Buf) :=
  logoReplacementsGo content aUrl bUrl (ms.enum.map (fun p => (p.1, p.2.1, p.2.2)))

/-- One in-place span replacement: content[:start] + repl + content[end:]. -/
def spliceAt (b : Buf) (s e : Nat) (r : Buf) : Buf := b.take s ++ r ++ b.drop e

/-- Source lines 657-659: the replacement list is applied in reverse order
so earlier edits do not invalidate the recorded offsets. -/
def applyReversed (rs : List (Nat × Nat × Buf)) (content : Buf) : Buf :=
  rs.reverse.foldl (fun acc r => spliceAt acc r.1 r.2.1 r.2.2) content

/-- Pure core of update_team_logos; the URLs are the table lookups for the
two teams (none models a missing table entry, line 634: the buffer is
returned untouched). -/
def update_team_logos (nyrUrl oppUrl : Option Buf) (content : Buf) : Buf :=
  match nyrUrl, oppUrl with
  | some a, some b => applyReversed (logoReplacements content a b (findLogoMatches content)) content
  | _, _ => content

/-- Source lines 645-646: the warning condition (fewer than 4 matches). -/
def logoWarning (content : Buf) : Bool := (findLogoMatches content).length < 4

/-! ## Template Patch Engine: team regions (source: update_team_section, lines 752-776 and 958-961)

The region separator is the regex <hr\s+style="width:\d+%"> (line 754, no
flags).  Both quantifiers are followed by a character outside their class,
so maximal munch again coincides with the regex engine. -/

def pyWhitespace (c : Char) : Bool :=
  c == ' ' || c == '\t' || c == '\n' || c == '\r' || c == '\x0b' || c == '\x0c'

def matchHrAt (l : Buf) : Option Nat :=
  match l with
  | '<' :: 'h' :: 'r' :: rest =>
    let ws := rest.takeWhile pyWhitespace
    if ws = [] then none
    else
      let rest2 := rest.drop ws.length
      if "style=\"width:".data.isPrefixOf rest2 then
        let rest3 := rest2.drop 13
        let ds := rest3.takeWhile Char.isDigit
        if ds = [] then none
        else if "%\">".data.isPrefixOf (rest3.drop ds.length) then
          some (3 + ws.length + 13 + ds.length + 3)
        else none
      else none
  | _ => none

def scanHrF : Nat → Nat → Buf → List (Nat × Nat)
  | 0, _, _ => []
  | _, _, [] => []
  | fuel + 1, pos, c :: rest =>
    match matchHrAt (c :: rest) with
    | some len => (pos, pos + len) :: scanHrF fuel (pos + len) ((c :: rest).drop len)
    | none => scanHrF fuel (pos + 1) rest

def findHrMatches (l : Buf) : List (Nat × Nat) := scanHrF (l.length + 1) 0 l

/-- Source lines 757-772: with at least two separator matches the first
team's section runs from the start to the second match and the second
team's from the second match to the third match or the end; with fewer
matches the whole buffer is the section. -/
def sectionBounds (content : Buf) (isFirst : Bool) : Nat × Nat :=
  match findHrMatches content with
  | _ :: m1 :: rest =>
    if isFirst then (0, m1.1)
    else (m1.1, match rest with | m2 :: _ => m2.1 | [] => content.length)
  | _ => (0, content.length)

/-- Source lines 767 and 959: the section is cut out, patched, and spliced
back between the untouched prefix and suffix.  The concrete substitution
chain of lines 778-956 is the patch argument. -/
def updateTeamSectionWith (patch : Buf → Buf) (content : Buf) (isFirst : Bool) : Buf :=
  let b := sectionBounds content isFirst
  content.take b.1 ++ patch ((content.take b.2).drop b.1) ++ content.drop b.2

/-- Source lines 709-712: when the standings fetch for the team failed the
function returns the buffer unchanged, before any patching. -/
def update_team_section {σ : Type} (standings : Option σ) (patch : Buf → Buf)
    (content : Buf) (isFirst : Bool) : Buf :=
  match standings with
  | none => content
  | some _ => updateTeamSectionWith patch content isFirst

/-- The two per-team patch passes in pipeline order (lines 1002 and 1009). -/
def updateBothTeams (patchA patchB : Buf → Buf) (content : Buf) : Buf :=
  updateTeamSectionWith patchB (updateTeamSectionWith patchA content true) false

/-- The anchored-substitution core primitive (spec 4.5; each re.sub call
of lines 778-956 instantiates it): find the first anchor occurrence, then
the first terminator occurrence after it, and replace the span between
them with the rendered value, keeping anchor and terminator. -/
def replaceSpan (anchor term val : Buf) (b : Buf) : Buf :=
  match findSub? anchor b with
  | none => b
  | some i =>
    let j := i + anchor.length
    match findSub? term (b.drop j) with
    | none => b
    | some k => b.take j ++ val ++ b.drop (j + k)

/-- An ordered list of anchored field substitutions applied to a section. -/
def applyFields (fs : List (Buf × Buf × Buf)) (b : Buf) : Buf :=
  fs.foldl (fun acc f => replaceSpan f.1 f.2.1 f.2.2 acc) b

/-! ## Orchestrator (source: update_template, lines 964-1012)

Logos first, then the game header when a game was found (the header
substitutions are display regexes abstracted as a patch function), then
the first team's section pass, then the second team's.  The function is
total: every failure path passes the buffer through unchanged. -/

/-- Source lines 977-996: the header substitutions run only when a game
was found; otherwise the buffer passes through with a warning. -/
def applyHeader (header : Option (Buf → Buf)) (b : Buf) : Buf :=
  match header with
  | some hp => hp b
  | none => b

def update_template {σ : Type} (nyrUrl oppUrl : Option Buf) (header : Option (Buf → Buf))
    (standingsA standingsB : Option σ) (patchA patchB : Buf → Buf) (tpl : Buf) : Buf :=
  let t1 := update_team_logos nyrUrl oppUrl tpl
  let t2 := applyHeader header t1
  let t3 := update_team_section standingsA patchA t2 true
  update_team_section standingsB patchB t3 false

/-! ## Concrete instances used by counterexamples and witnesses -/

/-- A synthetic two-region template: one field in each of the three
segments delimited by the two separator markers, all carrying the same
anchor label. -/
def cexTemplate : Buf :=
  ("[x:a]<hr style=\"width:1%\">[x:b]<hr style=\"width:1%\">[x:c]").data

/-- A first-team patch whose rendered value itself contains a region
separator marker. -/
def cexPatchA : Buf → Buf :=
  applyFields [("[x:".data, "]".data, ("INJ<hr style=\"width:1%\">[q:z").data)]

def cexPatchB : Buf → Buf :=
  applyFields [("[x:".data, "]".data, "BBB".data)]

/-- Well-formedness of a span list produced by a left-to-right
non-overlapping scanner: spans start at or after k, are nonempty, end by
n, and each span begins at or after the previous span's end. -/
def Chained (k n : Nat) : List (Nat × Nat) → Prop
  | [] => True
  | (s, e) :: rest => k ≤ s ∧ s < e ∧ e ≤ n ∧ Chained e n rest

/-! ## Helper lemmas -/

theorem update_team_section_none {σ : Type} (patch : Buf → Buf) (content : Buf)
    (first : Bool) : update_team_section (none : Option σ) patch content first = content := rfl

theorem updateTeamSectionWith_fallback (patch : Buf → Buf) (content : Buf) (first : Bool)
    (h : (findHrMatches content).length < 2) :
    updateTeamSectionWith patch content first = patch content := by
  unfold updateTeamSectionWith sectionBounds
  rcases hm : findHrMatches content with _ | ⟨m0, _ | ⟨m1, rest⟩⟩
  · simp [List.take_length, List.drop_length]
  · simp [List.take_length, List.drop_length]
  · rw [hm] at h
    simp at h
    omega

/-! ## Claim theorems -/

/-- C2: the reconstructor maps connor-mcdavid and j-t-miller as the claim
states, but a slug with a leading lone o segment is consumed by the
single-character-initials branch (the merge branch of source line 177 is
unreachable), so o-reilly becomes O. Reilly, not an O-apostrophe name:
the code contradicts its own (dead) merge branch. -/
theorem claim2_slug_literals :
    slug_to_name "connor-mcdavid" = "Connor McDavid" ∧
    slug_to_name "j-t-miller" = "J.T. Miller" ∧
    slug_to_name "o-reilly" = "O. Reilly" ∧
    slug_to_name "o-reilly" ≠ String.mk (['O', apostropheChar] ++ "Reilly".data) :=
  ⟨by decide, by decide, by decide, by decide⟩

/-- C10: with fewer than two separator matches, the per-team patcher
treats the entire buffer as the section for both the first and the second
team, so both teams' substitutions act on the whole document; concretely,
on a separator-free buffer the second team's substitution overwrites the
span the first team just patched. -/
theorem claim10_whole_buffer_fallback :
    (∀ (patch : Buf → Buf) (content : Buf) (first : Bool),
      (findHrMatches content).length < 2 →
      updateTeamSectionWith patch content first = patch content) ∧
    updateBothTeams (applyFields [("[x:".data, "]".data, "AAA".data)])
        (applyFields [("[x:".data, "]".data, "BBB".data)]) "[x:a]".data
      = "[x:BBB]".data ∧
    containsSub "AAA".data
        (applyFields [("[x:".data, "]".data, "AAA".data)] "[x:a]".data) = true ∧
    containsSub "AAA".data "[x:BBB]".data = false :=
  ⟨updateTeamSectionWith_fallback, by decide, by decide, by decide⟩

/-- C10 witness: the fallback theorem applied to a concrete buffer with no
separator match. -/
theorem claim10_whole_buffer_fallback_witness :
    updateTeamSectionWith (applyFields [("[x:".data, "]".data, "AAA".data)]) "[x:a]".data true
      = applyFields [("[x:".data, "]".data, "AAA".data)] "[x:a]".data :=
  claim10_whole_buffer_fallback.1 (applyFields [("[x:".data, "]".data, "AAA".data)])
    "[x:a]".data true (by decide)

/-- C1 amended: a failed standings fetch for a team is a soft failure, not
an abort: that team's section pass returns its input buffer unchanged, so
the pipeline still runs to completion and returns the buffer patched by
every other step (in particular a document is still produced). -/
theorem claim1_standings_soft_failure :
    (∀ {σ : Type} (patch : Buf → Buf) (content : Buf) (first : Bool),
      update_team_section (none : Option σ) patch content first = content) ∧
    (∀ {σ : Type} (u v : Option Buf) (hd : Option (Buf → Buf)) (sA : Option σ)
        (pA pB : Buf → Buf) (tpl : Buf),
      update_template u v hd sA none pA pB tpl
        = update_team_section sA pA (applyHeader hd (update_team_logos u v tpl)) true) :=
  ⟨fun _ _ _ => rfl, fun _ _ _ _ _ _ _ => rfl⟩

/-- C1 counterexample: with the second team's standings fetch absent the
pipeline does not abort; it returns the buffer produced by the remaining
steps (here the first team's substitution has been applied), a nonempty
document handed back to the caller. -/
theorem claim1_counterexample :
    update_template none none none (some ()) (none : Option Unit)
        (applyFields [("[x:".data, "]".data, "AAA".data)]) (fun b => b) "[x:a]".data
      = "[x:AAA]".data ∧
    "[x:AAA]".data ≠ ([] : Buf) :=
  ⟨by decide, by decide⟩

/-- C9: the patch pipeline is a pure function of the fetched aggregate
data, so applying it to two identical copies of a template buffer yields
byte-identical output. -/
theorem claim9_determinism :
    ∀ {σ : Type} (u v : Option Buf) (hd : Option (Buf → Buf)) (sA sB : Option σ)
      (pA pB : Buf → Buf) (tpl copy : Buf),
      copy = tpl →
      update_template u v hd sA sB pA pB copy = update_template u v hd sA sB pA pB tpl := by
  intro σ u v hd sA sB pA pB tpl copy h
  rw [h]

/-- C9 witness: the determinism theorem applied to a concrete template
copy. -/
theorem claim9_determinism_witness :
    update_template none none none (some ()) (some ())
        (applyFields [("[x:".data, "]".data, "AAA".data)]) (fun b => b) "[x:a]".data
      = update_template none none none (some ()) (some ())
        (applyFields [("[x:".data, "]".data, "AAA".data)]) (fun b => b) "[x:a]".data :=
  claim9_determinism none none none (some ()) (some ())
    (applyFields [("[x:".data, "]".data, "AAA".data)]) (fun b => b) "[x:a]".data
    "[x:a]".data rfl

/-- C3 amended: provided the first team's patched section still carries
the separator structure (its patched region is followed by the second
separator exactly at its own length, i.e. the patch neither removed the
region separator nor injected new ones), each team's substitutions are
confined to that team's positionally determined region: the final buffer
decomposes as the patched first region followed by the patched second
region, so bytes outside each patch's output are unchanged and identical
placeholder labels never cross-contaminate. -/
theorem claim3_region_isolation :
    ∀ (content : Buf) (patchA patchB : Buf → Buf) (m0 m1 m0' m1' : Nat × Nat),
      findHrMatches content = [m0, m1] →
      findHrMatches (patchA (content.take m1.1) ++ content.drop m1.1) = [m0', m1'] →
      m1'.1 = (patchA (content.take m1.1)).length →
      updateBothTeams patchA patchB content
        = patchA (content.take m1.1) ++ patchB (content.drop m1.1) ∧
      (updateBothTeams patchA patchB content).take (patchA (content.take m1.1)).length
        = patchA (content.take m1.1) ∧
      (updateBothTeams patchA patchB content).drop (patchA (content.take m1.1)).length
        = patchB (content.drop m1.1) := by
  intro content pA pB m0 m1 m0' m1' h1 h2 h3
  have key : updateBothTeams pA pB content
      = pA (content.take m1.1) ++ pB (content.drop m1.1) := by
    unfold updateBothTeams updateTeamSectionWith sectionBounds
    rw [h1]
    simp only [if_true, List.take_zero, List.drop_zero, List.nil_append]
    rw [h2]
    simp only [Bool.false_eq_true, if_false, List.take_length, List.drop_length,
      List.append_nil, h3, List.take_left, List.drop_left]
  refine ⟨key, ?_, ?_⟩
  · rw [key]
    exact List.take_left _ _
  · rw [key]
    exact List.drop_left _ _

/-- C3 counterexample: the claim fails without the proviso: on a
two-region template where the first team's substituted value itself
contains a separator marker, the second team's pass is mis-scoped and
rewrites a placeholder that lay in the first team's region, leaving the
second region's own identical label untouched. -/
theorem claim3_counterexample :
    findHrMatches cexTemplate = [(5, 26), (31, 52)] ∧
    updateBothTeams cexPatchA cexPatchB cexTemplate
      ≠ cexPatchA (cexTemplate.take 31) ++ cexPatchB (cexTemplate.drop 31) ∧
    containsSub "[x:BBB]".data ((updateBothTeams cexPatchA cexPatchB cexTemplate).take 60)
      = true ∧
    containsSub "[x:c]".data (updateBothTeams cexPatchA cexPatchB cexTemplate) = true :=
  ⟨by decide, by decide, by decide, by decide⟩

/-- C3 witness: the isolation theorem applied to a concrete two-region
template carrying the same placeholder label in both regions, patched
with different values per team. -/
theorem claim3_region_isolation_witness :
    updateBothTeams (applyFields [("[x:".data, "]".data, "AA".data)])
        (applyFields [("[x:".data, "]".data, "BB".data)])
        ("H<hr style=\"width:1%\">[x:a]<hr style=\"width:1%\">[x:t]").data
      = applyFields [("[x:".data, "]".data, "AA".data)]
          (("H<hr style=\"width:1%\">[x:a]<hr style=\"width:1%\">[x:t]").data.take 27)
        ++ applyFields [("[x:".data, "]".data, "BB".data)]
          (("H<hr style=\"width:1%\">[x:a]<hr style=\"width:1%\">[x:t]").data.drop 27) :=
  (claim3_region_isolation ("H<hr style=\"width:1%\">[x:a]<hr style=\"width:1%\">[x:t]").data
    (applyFields [("[x:".data, "]".data, "AA".data)])
    (applyFields [("[x:".data, "]".data, "BB".data)])
    (1, 22) (27, 48) (1, 22) (28, 49) (by decide) (by decide) (by decide)).1

theorem foldl_count_pair {α : Type} (P Q : α → Prop) [DecidablePred P] [DecidablePred Q]
    (l : List α) (a b : Nat) :
    l.foldl (fun acc t => ((if P t then acc.1 + 1 else acc.1),
        (if Q t then acc.2 + 1 else acc.2))) (a, b)
      = (a + l.countP (fun t => decide (P t)), b + l.countP (fun t => decide (Q t))) := by
  induction l generalizing a b with
  | nil => simp
  | cons t rest ih =>
    simp only [List.foldl_cons, List.countP_cons]
    rw [ih]
    by_cases hp : P t <;> by_cases hq : Q t <;> simp [hp, hq] <;> omega

theorem foldl_count_triple {α : Type} (P Q R : α → Prop) [DecidablePred P] [DecidablePred Q]
    [DecidablePred R] (l : List α) (a b c : Nat) :
    l.foldl (fun acc t => ((if P t then acc.1 + 1 else acc.1),
        (if Q t then acc.2.1 + 1 else acc.2.1), (if R t then acc.2.2 + 1 else acc.2.2))) (a, b, c)
      = (a + l.countP (fun t => decide (P t)), b + l.countP (fun t => decide (Q t)),
         c + l.countP (fun t => decide (R t))) := by
  induction l generalizing a b c with
  | nil => simp
  | cons t rest ih =>
    simp only [List.foldl_cons, List.countP_cons]
    rw [ih]
    by_cases hp : P t <;> by_cases hq : Q t <;> by_cases hr : R t <;> simp [hp, hq, hr] <;> omega

theorem rankLoop_eq (d : Int) (gf ga : ℚ) (rows : List StandingRow) :
    rankLoop d gf ga rows
      = (1 + rows.countP (fun t => decide (d < t.goalDifferential)),
         1 + rows.countP (fun t => decide (gf < gfPerGame t)),
         1 + rows.countP (fun t => decide (gaPerGame t < ga))) :=
  foldl_count_triple (fun (t : StandingRow) => d < t.goalDifferential)
    (fun (t : StandingRow) => gf < gfPerGame t)
    (fun (t : StandingRow) => gaPerGame t < ga) rows 1 1 1

theorem ppPkLoop_eq (pp pk : ℚ) (rows : List SummaryRow) :
    ppPkLoop pp pk rows
      = (1 + rows.countP (fun t => decide (pp < t.powerPlayPct * 100)),
         1 + rows.countP (fun t => decide (pk < t.penaltyKillPct * 100))) :=
  foldl_count_pair (fun (t : SummaryRow) => pp < t.powerPlayPct * 100)
    (fun (t : SummaryRow) => pk < t.penaltyKillPct * 100) rows 1 1

/-- C4: for each of the five rate metrics the computed rank is 1 plus the
count of league entries strictly better on that metric than the target
(the target entry itself never satisfies the strict comparison, so the
count over all entries equals the count over the other entries), and
because each rank is a function of the metric value alone, entries with
equal metric values receive equal ranks. -/
theorem claim4_rank_by_strictly_better :
    (∀ (rows : List StandingRow) (srows : List SummaryRow) (abbr fullName : String)
        (td : StandingRow) (st : TeamRateStats),
      get_team_stats (some rows) (some srows) abbr fullName = some (td, st) →
      st.diff = td.goalDifferential ∧
      st.gf_per_game = gfPerGame td ∧
      st.ga_per_game = gaPerGame td ∧
      st.diff_rank = 1 + rows.countP (fun t => decide (td.goalDifferential < t.goalDifferential)) ∧
      st.gf_rank = 1 + rows.countP (fun t => decide (gfPerGame td < gfPerGame t)) ∧
      st.ga_rank = 1 + rows.countP (fun t => decide (gaPerGame t < gaPerGame td)) ∧
      st.pp_rank = 1 + srows.countP (fun s => decide (st.pp_pct < s.powerPlayPct * 100)) ∧
      st.pk_rank = 1 + srows.countP (fun s => decide (st.pk_pct < s.penaltyKillPct * 100)) ∧
      (∀ srow, srows.find? (fun s => s.teamFullName == fullName) = some srow →
        st.pp_pct = srow.powerPlayPct * 100 ∧ st.pk_pct = srow.penaltyKillPct * 100)) ∧
    (∀ (rows : List StandingRow) (d e : Int) (g h a b : ℚ),
      d = e → g = h → a = b → rankLoop d g a rows = rankLoop e h b rows) ∧
    (∀ (srows : List SummaryRow) (p q k m : ℚ),
      p = q → k = m → ppPkLoop p k srows = ppPkLoop q m srows) := by
  refine ⟨?_, ?_, ?_⟩
  · intro rows srows abbr fullName td st h
    simp only [get_team_stats] at h
    cases hf : rows.find? (fun t => t.teamAbbrev == abbr) with
    | none => rw [hf] at h; exact absurd h (by simp)
    | some td2 =>
      rw [hf] at h
      cases hfs : srows.find? (fun s => s.teamFullName == fullName) with
      | none =>
        rw [hfs] at h
        rw [Option.some.injEq, Prod.mk.injEq] at h
        obtain ⟨rfl, hst⟩ := h
        subst hst
        refine ⟨rfl, rfl, rfl, ?_, ?_, ?_, ?_, ?_, ?_⟩
        · rw [rankLoop_eq]
        · rw [rankLoop_eq]
        · rw [rankLoop_eq]
        · rw [ppPkLoop_eq]
        · rw [ppPkLoop_eq]
        · intro srow hsr
          exact absurd hsr (by simp)
      | some srow0 =>
        rw [hfs] at h
        rw [Option.some.injEq, Prod.mk.injEq] at h
        obtain ⟨rfl, hst⟩ := h
        subst hst
        refine ⟨rfl, rfl, rfl, ?_, ?_, ?_, ?_, ?_, ?_⟩
        · rw [rankLoop_eq]
        · rw [rankLoop_eq]
        · rw [rankLoop_eq]
        · rw [ppPkLoop_eq]
        · rw [ppPkLoop_eq]
        · intro srow hsr
          have hs0 : srow0 = srow := Option.some.inj hsr
          subst hs0
          exact ⟨rfl, rfl⟩
  · intro rows d e g h a b hd hg ha
    rw [hd, hg, ha]
  · intro srows p q k m hp hk
    rw [hp, hk]

/-- C4 witness: the rank theorem applied to a concrete two-team league
(the per-game rates degenerate to 0, keeping the witness free of rational
arithmetic): the other team is strictly better on goal differential, so
the target ranks 2nd there and 1st everywhere else. -/
theorem claim4_rank_witness :
    (TeamRateStats.diff_rank ⟨4, 2, 0, 1, 0, 1, 0, 1, 0, 1⟩ : Nat)
      = 1 + List.countP
          (fun (t : StandingRow) =>
            decide (StandingRow.goalDifferential ⟨"NYR", 0, 0, 0, 4⟩ < t.goalDifferential))
          ([⟨"AAA", 0, 0, 0, 6⟩, ⟨"NYR", 0, 0, 0, 4⟩] : List StandingRow) ∧
    (TeamRateStats.gf_rank ⟨4, 2, 0, 1, 0, 1, 0, 1, 0, 1⟩ : Nat)
      = 1 + List.countP (fun (t : StandingRow) => decide (gfPerGame ⟨"NYR", 0, 0, 0, 4⟩ < gfPerGame t))
          ([⟨"AAA", 0, 0, 0, 6⟩, ⟨"NYR", 0, 0, 0, 4⟩] : List StandingRow) :=
  ⟨(claim4_rank_by_strictly_better.1 [⟨"AAA", 0, 0, 0, 6⟩, ⟨"NYR", 0, 0, 0, 4⟩] []
      "NYR" "New York Rangers" ⟨"NYR", 0, 0, 0, 4⟩ ⟨4, 2, 0, 1, 0, 1, 0, 1, 0, 1⟩
      (by decide)).2.2.2.1,
   (claim4_rank_by_strictly_better.1 [⟨"AAA", 0, 0, 0, 6⟩, ⟨"NYR", 0, 0, 0, 4⟩] []
      "NYR" "New York Rangers" ⟨"NYR", 0, 0, 0, 4⟩ ⟨4, 2, 0, 1, 0, 1, 0, 1, 0, 1⟩
      (by decide)).2.2.2.2.1⟩

theorem maxFold_nil {α β : Type} [LinearOrder β] (f : α → β) (t0 : β) :
    maxFold f t0 ([] : List α) = t0 := rfl

theorem maxFold_cons {α β : Type} [LinearOrder β] (f : α → β) (t0 : β) (p : α) (l : List α) :
    maxFold f t0 (p :: l) = maxFold f (max t0 (f p)) l := rfl

theorem maxFold_append_singleton {α β : Type} [LinearOrder β] (f : α → β) (t0 : β)
    (l : List α) (a : α) : maxFold f t0 (l ++ [a]) = max (maxFold f t0 l) (f a) := by
  simp [maxFold, List.foldl_append]

theorem le_maxFold {α β : Type} [LinearOrder β] (f : α → β) (t0 : β) (l : List α) :
    t0 ≤ maxFold f t0 l := by
  induction l generalizing t0 with
  | nil => exact le_refl t0
  | cons p rest ih =>
    rw [maxFold_cons]
    exact le_trans (le_max_left t0 (f p)) (ih (max t0 (f p)))

theorem mem_le_maxFold {α β : Type} [LinearOrder β] (f : α → β) (t0 : β) (l : List α)
    (x : α) (hx : x ∈ l) : f x ≤ maxFold f t0 l := by
  induction l generalizing t0 with
  | nil => cases hx
  | cons p rest ih =>
    rw [maxFold_cons]
    rcases List.mem_cons.mp hx with rfl | hmem
    · exact le_trans (le_max_right t0 (f x)) (le_maxFold f (max t0 (f x)) rest)
    · exact ih (max t0 (f p)) hmem

theorem maxFold_attained {α β : Type} [LinearOrder β] (f : α → β) (t0 : β) (l : List α)
    (h : t0 < maxFold f t0 l) : ∃ x ∈ l, f x = maxFold f t0 l := by
  induction l generalizing t0 with
  | nil => exact absurd h (lt_irrefl t0)
  | cons p rest ih =>
    rw [maxFold_cons] at h ⊢
    by_cases hc : max t0 (f p) < maxFold f (max t0 (f p)) rest
    · obtain ⟨x, hx, he⟩ := ih (max t0 (f p)) hc
      exact ⟨x, List.mem_cons_of_mem p hx, he⟩
    · have he : maxFold f (max t0 (f p)) rest = max t0 (f p) :=
        le_antisymm (not_lt.mp hc) (le_maxFold f (max t0 (f p)) rest)
      have hp : max t0 (f p) = f p := by
        rcases max_choice t0 (f p) with hm | hm
        · rw [he, hm] at h
          exact absurd h (lt_irrefl t0)
        · exact hm
      exact ⟨p, List.mem_cons_self p rest, by rw [he, hp]⟩

theorem scanBest_eq_specSelect {α β : Type} [LinearOrder β] (f : α → β) (t0 : β)
    (l : List α) : scanBest f t0 l = specSelect f t0 l := by
  suffices hs : l.foldl (fun acc p => if acc.2 < f p then (some p, f p) else acc)
      ((none : Option α), t0) = (specSelect f t0 l, maxFold f t0 l) by
    unfold scanBest
    rw [hs]
  induction l using List.reverseRecOn with
  | nil =>
    simp [specSelect, maxFold_nil]
  | append_singleton l a ih =>
    rw [List.foldl_append, ih]
    simp only [List.foldl_cons, List.foldl_nil]
    by_cases hlt : maxFold f t0 l < f a
    · have hm : maxFold f t0 (l ++ [a]) = f a := by
        rw [maxFold_append_singleton]
        exact max_eq_right hlt.le
      have ht : t0 < f a := lt_of_le_of_lt (le_maxFold f t0 l) hlt
      have hnone : l.find? (fun p => decide (f p = f a)) = none := by
        rw [List.find?_eq_none]
        intro x hx hdx
        have : f x = f a := of_decide_eq_true hdx
        exact absurd (this ▸ mem_le_maxFold f t0 l x hx) (not_le.mpr hlt)
      have hsel : specSelect f t0 (l ++ [a]) = some a := by
        unfold specSelect
        rw [hm, if_pos ht, List.find?_append, hnone]
        simp
      rw [hsel, hm]
      simp [hlt]
    · have hm : maxFold f t0 (l ++ [a]) = maxFold f t0 l := by
        rw [maxFold_append_singleton]
        exact max_eq_left (not_lt.mp hlt)
      have hsel : specSelect f t0 (l ++ [a]) = specSelect f t0 l := by
        unfold specSelect
        rw [hm]
        by_cases ht : t0 < maxFold f t0 l
        · rw [if_pos ht, if_pos ht, List.find?_append]
          obtain ⟨x, hx, he⟩ := maxFold_attained f t0 l ht
          have : (l.find? (fun p => decide (f p = maxFold f t0 l))).isSome := by
            rw [List.find?_isSome]
            exact ⟨x, hx, decide_eq_true he⟩
          rcases ho : l.find? (fun p => decide (f p = maxFold f t0 l)) with _ | y
          · rw [ho] at this
            simp at this
          · rfl
        · rw [if_neg ht, if_neg ht]
      rw [hsel, hm]
      simp [hlt]

theorem toiLoop_split (l : List Skater) :
    toiLoop l
      = ((l.filter (fun p => p.positionCode == "D")).foldl
           (fun acc p =>
             if acc.2 < p.avgTimeOnIcePerGame then (some p, p.avgTimeOnIcePerGame) else acc)
           ((none : Option Skater), (0 : ℚ)),
         (l.filter (fun p => !(p.positionCode == "D"))).foldl
           (fun acc p =>
             if acc.2 < p.avgTimeOnIcePerGame then (some p, p.avgTimeOnIcePerGame) else acc)
           ((none : Option Skater), (0 : ℚ))) := by
  suffices hs : ∀ dAcc fAcc : Option Skater × ℚ,
      l.foldl
        (fun acc p =>
          if p.positionCode == "D" then
            ((if acc.1.2 < p.avgTimeOnIcePerGame then (some p, p.avgTimeOnIcePerGame) else acc.1),
             acc.2)
          else
            (acc.1,
             (if acc.2.2 < p.avgTimeOnIcePerGame then (some p, p.avgTimeOnIcePerGame) else acc.2)))
        (dAcc, fAcc)
      = ((l.filter (fun p => p.positionCode == "D")).foldl
           (fun acc p =>
             if acc.2 < p.avgTimeOnIcePerGame then (some p, p.avgTimeOnIcePerGame) else acc) dAcc,
         (l.filter (fun p => !(p.positionCode == "D"))).foldl
           (fun acc p =>
             if acc.2 < p.avgTimeOnIcePerGame then (some p, p.avgTimeOnIcePerGame) else acc) fAcc) by
    exact hs ((none : Option Skater), (0 : ℚ)) ((none : Option Skater), (0 : ℚ))
  induction l with
  | nil => intro dAcc fAcc; rfl
  | cons p rest ih =>
    intro dAcc fAcc
    cases hd : (p.positionCode == "D") with
    | true =>
      rw [List.foldl_cons, if_pos hd, List.filter_cons_of_pos, List.filter_cons_of_neg,
        List.foldl_cons]
      all_goals first | exact ih _ _ | exact hd | simp [hd]
    | false =>
      rw [List.foldl_cons, if_neg (by simp [hd]), List.filter_cons_of_neg,
        List.filter_cons_of_pos, List.foldl_cons]
      all_goals first | exact ih _ _ | simp [hd]

/-- C8: every per-category leader is chosen by a left-to-right scan with a
strict greater-than update, which selects exactly the first element
attaining the category maximum (first index wins on ties), separately for
the five skater categories and, for average ice time, separately over
defensemen and over the remaining skaters. -/
theorem claim8_leaders_first_tie_wins :
    ∀ skaters : List Skater,
      (get_team_leaders (some skaters)).goals
          = specSelect (fun p => p.goals) (-9999) skaters ∧
      (get_team_leaders (some skaters)).assists
          = specSelect (fun p => p.assists) (-9999) skaters ∧
      (get_team_leaders (some skaters)).points
          = specSelect (fun p => p.points) (-9999) skaters ∧
      (get_team_leaders (some skaters)).plusMinus
          = specSelect (fun p => p.plusMinus) (-9999) skaters ∧
      (get_team_leaders (some skaters)).pim
          = specSelect (fun p => p.penaltyMinutes) 0 skaters ∧
      (get_team_leaders (some skaters)).toi_d
          = specSelect (fun p => p.avgTimeOnIcePerGame) 0
              (skaters.filter (fun p => p.positionCode == "D")) ∧
      (get_team_leaders (some skaters)).toi_f
          = specSelect (fun p => p.avgTimeOnIcePerGame) 0
              (skaters.filter (fun p => !(p.positionCode == "D"))) := by
  intro skaters
  refine ⟨?_, ?_, ?_, ?_, ?_, ?_, ?_⟩
  · exact scanBest_eq_specSelect (fun p => p.goals) (-9999) skaters
  · exact scanBest_eq_specSelect (fun p => p.assists) (-9999) skaters
  · exact scanBest_eq_specSelect (fun p => p.points) (-9999) skaters
  · exact scanBest_eq_specSelect (fun p => p.plusMinus) (-9999) skaters
  · exact scanBest_eq_specSelect (fun p => p.penaltyMinutes) 0 skaters
  · show chooseToiD skaters = _
    unfold chooseToiD
    rw [toiLoop_split]
    exact scanBest_eq_specSelect (fun p => p.avgTimeOnIcePerGame) 0
      (skaters.filter (fun p => p.positionCode == "D"))
  · show chooseToiF skaters = _
    unfold chooseToiF
    rw [toiLoop_split]
    exact scanBest_eq_specSelect (fun p => p.avgTimeOnIcePerGame) 0
      (skaters.filter (fun p => !(p.positionCode == "D")))

theorem buildForwards_eq (names : List String) :
    buildForwards names
      = [names.take 3, (names.drop 3).take 3, (names.drop 6).take 3, (names.drop 9).take 3] := by
  rcases names with _ | ⟨a1, _ | ⟨a2, _ | ⟨a3, _ | ⟨a4, _ | ⟨a5, _ | ⟨a6, _ | ⟨a7, _ | ⟨a8, _ |
    ⟨a9, _ | ⟨a10, _ | ⟨a11, _ | ⟨a12, rest⟩⟩⟩⟩⟩⟩⟩⟩⟩⟩⟩⟩ <;>
    simp [buildForwards, appendAt, List.enum]

theorem buildDefense_eq (names : List String) :
    buildDefense names
      = [((names.drop 12).take 6).take 2, (((names.drop 12).take 6).drop 2).take 2,
         (((names.drop 12).take 6).drop 4).take 2] := by
  rcases names with _ | ⟨a1, _ | ⟨a2, _ | ⟨a3, _ | ⟨a4, _ | ⟨a5, _ | ⟨a6, _ | ⟨a7, _ | ⟨a8, _ |
    ⟨a9, _ | ⟨a10, _ | ⟨a11, _ | ⟨a12, _ | ⟨a13, _ | ⟨a14, _ | ⟨a15, _ | ⟨a16, _ | ⟨a17, _ |
    ⟨a18, rest⟩⟩⟩⟩⟩⟩⟩⟩⟩⟩⟩⟩⟩⟩⟩⟩⟩⟩ <;>
    simp [buildDefense, appendAt, List.enum]

theorem buildGoalies_eq (names : List String) :
    buildGoalies names = (names.drop 18).take 2 := by
  unfold buildGoalies
  by_cases hl : 18 < names.length
  · rw [if_pos hl]
  · rw [if_neg hl]
    have hz : names.drop 18 = [] := List.drop_eq_nil_of_le (by omega)
    rw [hz]
    rfl

theorem dedupLoop_master (slugs : List Buf) : ∀ sn : List Buf,
    (dedupLoop sn slugs).1.Sublist slugs ∧
    (∀ s ∈ (dedupLoop sn slugs).1, lowerBuf s ∉ sn ∧
      slugs.find? (fun t => lowerBuf t == lowerBuf s) = some s) ∧
    ((dedupLoop sn slugs).1.map lowerBuf).Nodup ∧
    (∀ s ∈ slugs, lowerBuf s ∈ sn ∨ lowerBuf s ∈ (dedupLoop sn slugs).1.map lowerBuf) := by
  induction slugs with
  | nil =>
    intro sn
    exact ⟨List.Sublist.refl _, fun s hs => absurd hs (List.not_mem_nil s),
      List.nodup_nil, fun s hs => absurd hs (List.not_mem_nil s)⟩
  | cons hd rest ih =>
    intro sn
    by_cases hmem : lowerBuf hd ∈ sn
    · have hred : dedupLoop sn (hd :: rest) = dedupLoop sn rest := by
        simp [dedupLoop, hmem]
      obtain ⟨ihsub, ihfind, ihnodup, ihcov⟩ := ih sn
      rw [hred]
      refine ⟨ihsub.cons _, ?_, ihnodup, ?_⟩
      · intro s hs
        obtain ⟨hns, hfind⟩ := ihfind s hs
        refine ⟨hns, ?_⟩
        rw [List.find?_cons_of_neg, hfind]
        intro hbe
        have heq : lowerBuf hd = lowerBuf s := eq_of_beq hbe
        exact hns (heq ▸ hmem)
      · intro s hs
        rcases List.mem_cons.mp hs with rfl | hs2
        · exact Or.inl hmem
        · exact ihcov s hs2
    · have hred : (dedupLoop sn (hd :: rest)).1
          = hd :: (dedupLoop (lowerBuf hd :: sn) rest).1 := by
        simp [dedupLoop, hmem]
      obtain ⟨ihsub, ihfind, ihnodup, ihcov⟩ := ih (lowerBuf hd :: sn)
      rw [hred]
      refine ⟨?_, ?_, ?_, ?_⟩
      · exact ihsub.cons₂ hd
      · intro s hs
        rcases List.mem_cons.mp hs with rfl | hs2
        · refine ⟨hmem, ?_⟩
          rw [List.find?_cons_of_pos]
          simp
        · obtain ⟨hns, hfind⟩ := ihfind s hs2
          refine ⟨fun hin => hns (List.mem_cons_of_mem _ hin), ?_⟩
          rw [List.find?_cons_of_neg, hfind]
          intro hbe
          have heq : lowerBuf hd = lowerBuf s := eq_of_beq hbe
          exact hns (heq ▸ List.mem_cons_self (lowerBuf hd) sn)
      · rw [List.map_cons, List.nodup_cons]
        constructor
        · intro hin
          obtain ⟨s, hs, he⟩ := List.mem_map.mp hin
          obtain ⟨hns, _⟩ := ihfind s hs
          exact hns (he ▸ List.mem_cons_self (lowerBuf hd) sn)
        · exact ihnodup
      · intro s hs
        rcases List.mem_cons.mp hs with rfl | hs2
        · right
          rw [List.map_cons]
          exact List.mem_cons_self _ _
        · rcases ihcov s hs2 with hseen | hkeep
          · rcases List.mem_cons.mp hseen with heq | hseen2
            · right
              rw [List.map_cons, heq]
              exact List.mem_cons_self _ _
            · exact Or.inl hseen2
          · right
            rw [List.map_cons]
            exact List.mem_cons_of_mem _ hkeep

/-- C6 amended: player tokens are taken from the roster region, which is
the part of the page before the Injuries marker whenever the marker sits
at a positive offset (with no marker, or a marker at offset 0, the whole
page is used); they are deduplicated case-insensitively keeping the first
occurrence in order, and the resulting names fill the forward lines in
chunks of 3 from the first 12, the defense pairs in chunks of 2 from the
next 6, and up to 2 goalies from the next 2, partially filled or empty on
shortfall, with no failure path. -/
theorem claim6_roster_grouping (html : Buf) :
    (let names := (dedupLoop [] (playerTokens (rosterRegion html))).1.map slugToNameBuf
     (lineCombosOf html).forwards
        = [names.take 3, (names.drop 3).take 3, (names.drop 6).take 3, (names.drop 9).take 3] ∧
     (lineCombosOf html).defense
        = [((names.drop 12).take 6).take 2, (((names.drop 12).take 6).drop 2).take 2,
           (((names.drop 12).take 6).drop 4).take 2] ∧
     (lineCombosOf html).goalies = (names.drop 18).take 2) ∧
    (dedupLoop [] (playerTokens (rosterRegion html))).1.Sublist
      (playerTokens (rosterRegion html)) ∧
    ((dedupLoop [] (playerTokens (rosterRegion html))).1.map lowerBuf).Nodup ∧
    (∀ s ∈ playerTokens (rosterRegion html),
      lowerBuf s ∈ (dedupLoop [] (playerTokens (rosterRegion html))).1.map lowerBuf) ∧
    (∀ s ∈ (dedupLoop [] (playerTokens (rosterRegion html))).1,
      (playerTokens (rosterRegion html)).find? (fun t => lowerBuf t == lowerBuf s) = some s) ∧
    (∀ i, findSub? ">Injuries<".data html = some i → 0 < i →
      rosterRegion html = html.take i) ∧
    (findSub? ">Injuries<".data html = none → rosterRegion html = html) := by
  obtain ⟨hsub, hfind, hnodup, hcov⟩ :=
    dedupLoop_master (playerTokens (rosterRegion html)) []
  refine ⟨⟨?_, ?_, ?_⟩, hsub, hnodup, ?_, ?_, ?_, ?_⟩
  · exact buildForwards_eq _
  · exact buildDefense_eq _
  · exact buildGoalies_eq _
  · intro s hs
    rcases hcov s hs with habs | hin
    · exact absurd habs (List.not_mem_nil _)
    · exact hin
  · intro s hs
    exact (hfind s hs).2
  · intro i hi hpos
    unfold rosterRegion
    rw [hi]
    simp [hpos]
  · intro hi
    unfold rosterRegion
    rw [hi]

/-- C6 counterexample: on a page whose Injuries marker sits at offset 0
the region before the marker is empty and holds no tokens, yet the code
fills the first forward line from a player link that lies after the
marker, because find(...) > 0 treats the marker as absent. -/
theorem claim6_counterexample :
    findSub? ">Injuries<".data (">Injuries<href=\"/players/news/bob/1\"").data = some 0 ∧
    playerTokens ((">Injuries<href=\"/players/news/bob/1\"").data.take 0) = [] ∧
    (lineCombosOf (">Injuries<href=\"/players/news/bob/1\"").data).forwards
      = [["Bob"], [], [], []] :=
  ⟨by decide, by decide, by decide⟩

/-- C6 witness: the grouping theorem applied to a concrete page carrying
three player links, two of which are the same slug in different cases:
the duplicate is dropped, first-seen casing wins, and the two names fill
the first forward line. -/
theorem claim6_roster_grouping_witness :
    (lineCombosOf ("href=\"/players/news/bob/1\"href=\"/players/news/BOB/2\"href=\"/players/news/ann/3\"").data).forwards
      = [(((dedupLoop [] (playerTokens (rosterRegion
            ("href=\"/players/news/bob/1\"href=\"/players/news/BOB/2\"href=\"/players/news/ann/3\"").data))).1.map
            slugToNameBuf).take 3),
         ((((dedupLoop [] (playerTokens (rosterRegion
            ("href=\"/players/news/bob/1\"href=\"/players/news/BOB/2\"href=\"/players/news/ann/3\"").data))).1.map
            slugToNameBuf).drop 3).take 3),
         ((((dedupLoop [] (playerTokens (rosterRegion
            ("href=\"/players/news/bob/1\"href=\"/players/news/BOB/2\"href=\"/players/news/ann/3\"").data))).1.map
            slugToNameBuf).drop 6).take 3),
         ((((dedupLoop [] (playerTokens (rosterRegion
            ("href=\"/players/news/bob/1\"href=\"/players/news/BOB/2\"href=\"/players/news/ann/3\"").data))).1.map
            slugToNameBuf).drop 9).take 3)] ∧
    (playerTokens (rosterRegion
        ("href=\"/players/news/bob/1\"href=\"/players/news/BOB/2\"href=\"/players/news/ann/3\"").data)).find?
        (fun t => lowerBuf t == lowerBuf "bob".data)
      = some "bob".data :=
  ⟨(claim6_roster_grouping
      ("href=\"/players/news/bob/1\"href=\"/players/news/BOB/2\"href=\"/players/news/ann/3\"").data).1.1,
   (claim6_roster_grouping
      ("href=\"/players/news/bob/1\"href=\"/players/news/BOB/2\"href=\"/players/news/ann/3\"").data).2.2.2.2.1
      "bob".data (by decide)⟩

theorem statusOf_mem (w : Buf) :
    statusOf w = "OUT" ∨ statusOf w = "DTD" ∨ statusOf w = "LTIR" ∨ statusOf w = "IR" := by
  unfold statusOf
  repeat' split
  all_goals simp

theorem injuryLoop_entries (rosterSeen : List Buf) (sect : Buf) :
    ∀ (slugs seenInj : List Buf) (prev : String),
      (prev = "OUT" ∨ prev = "DTD" ∨ prev = "LTIR" ∨ prev = "IR") →
      ∀ e ∈ injuryLoop rosterSeen sect slugs seenInj prev,
        e.detail = "Undisclosed" ∧
        (e.status = "OUT" ∨ e.status = "DTD" ∨ e.status = "LTIR" ∨ e.status = "IR") := by
  intro slugs
  induction slugs with
  | nil =>
    intro seenInj prev hprev e he
    simp [injuryLoop] at he
  | cons s rest ih =>
    intro seenInj prev hprev e he
    by_cases hskip : lowerBuf s ∈ seenInj ∨ lowerBuf s ∈ rosterSeen
    · rw [show injuryLoop rosterSeen sect (s :: rest) seenInj prev
          = injuryLoop rosterSeen sect rest seenInj prev from by
        simp only [injuryLoop]
        rw [if_pos hskip]] at he
      exact ih seenInj prev hprev e he
    · have hstatus : ((match findSub? (lowerBuf s) (lowerBuf sect) with
          | some idx =>
            if 0 < idx then statusOf (lowerBuf ((sect.drop idx).take 500)) else prev
          | none => prev) = "OUT" ∨
          (match findSub? (lowerBuf s) (lowerBuf sect) with
          | some idx =>
            if 0 < idx then statusOf (lowerBuf ((sect.drop idx).take 500)) else prev
          | none => prev) = "DTD" ∨
          (match findSub? (lowerBuf s) (lowerBuf sect) with
          | some idx =>
            if 0 < idx then statusOf (lowerBuf ((sect.drop idx).take 500)) else prev
          | none => prev) = "LTIR" ∨
          (match findSub? (lowerBuf s) (lowerBuf sect) with
          | some idx =>
            if 0 < idx then statusOf (lowerBuf ((sect.drop idx).take 500)) else prev
          | none => prev) = "IR") := by
        rcases findSub? (lowerBuf s) (lowerBuf sect) with _ | idx
        · exact hprev
        · by_cases hp : 0 < idx
          · simpa [hp] using statusOf_mem (lowerBuf ((sect.drop idx).take 500))
          · simpa [hp] using hprev
      rw [show injuryLoop rosterSeen sect (s :: rest) seenInj prev
          = ⟨slugToNameBuf s,
             (match findSub? (lowerBuf s) (lowerBuf sect) with
              | some idx =>
                if 0 < idx then statusOf (lowerBuf ((sect.drop idx).take 500)) else prev
              | none => prev), "Undisclosed"⟩ ::
            injuryLoop rosterSeen sect rest (lowerBuf s :: seenInj)
              (match findSub? (lowerBuf s) (lowerBuf sect) with
               | some idx =>
                 if 0 < idx then statusOf (lowerBuf ((sect.drop idx).take 500)) else prev
               | none => prev) from by
        simp only [injuryLoop]
        rw [if_neg hskip]] at he
      rcases List.mem_cons.mp he with rfl | he2
      · exact ⟨rfl, hstatus⟩
      · exact ih (lowerBuf s :: seenInj) _ hstatus e he2

/-- C7 amended: every injury entry is produced for a token not already
seen in the roster region (the skip property below), its status comes from
scanning the 500-character window after the token's first occurrence for
keywords in priority order OUT, DTD/day-to-day, LTIR, IR with IR as the
default, so the status is always one of those four strings; the detail
field is always the string Undisclosed (capitalized, not the lowercase
string the claim quotes). -/
theorem claim7_injury_status :
    (∀ (html : Buf) (e : InjuryEntry), e ∈ (lineCombosOf html).injuries →
      e.detail = "Undisclosed" ∧
      (e.status = "OUT" ∨ e.status = "DTD" ∨ e.status = "LTIR" ∨ e.status = "IR")) ∧
    (∀ w : Buf, (containsSub ">out<".data w || containsSub ">out ".data w) = true →
      statusOf w = "OUT") ∧
    (∀ w : Buf, (containsSub ">out<".data w || containsSub ">out ".data w) = false →
      (containsSub ">dtd<".data w || containsSub "day-to-day".data w) = true →
      statusOf w = "DTD") ∧
    (∀ w : Buf, (containsSub ">out<".data w || containsSub ">out ".data w) = false →
      (containsSub ">dtd<".data w || containsSub "day-to-day".data w) = false →
      containsSub ">ltir<".data w = true → statusOf w = "LTIR") ∧
    (∀ w : Buf, (containsSub ">out<".data w || containsSub ">out ".data w) = false →
      (containsSub ">dtd<".data w || containsSub "day-to-day".data w) = false →
      containsSub ">ltir<".data w = false → statusOf w = "IR") ∧
    (∀ (rosterSeen : List Buf) (sect s : Buf) (rest seenInj : List Buf) (prev : String),
      (lowerBuf s ∈ seenInj ∨ lowerBuf s ∈ rosterSeen) →
      injuryLoop rosterSeen sect (s :: rest) seenInj prev
        = injuryLoop rosterSeen sect rest seenInj prev) := by
  refine ⟨?_, ?_, ?_, ?_, ?_, ?_⟩
  · intro html e he
    have hinj : (lineCombosOf html).injuries
        = match findSub? ">Injuries<".data html with
          | some i =>
            if 0 < i then
              injuryLoop (dedupLoop [] (playerTokens (rosterRegion html))).2
                ((html.drop i).take 10000)
                (playerTokens ((html.drop i).take 10000)) [] "IR"
            else []
          | none => [] := rfl
    rw [hinj] at he
    rcases hm : findSub? ">Injuries<".data html with _ | i
    · rw [hm] at he
      simp at he
    · rw [hm] at he
      by_cases hp : 0 < i
      · simp only [hp, if_true] at he
        exact injuryLoop_entries _ _ _ [] "IR" (by simp) e he
      · simp [hp] at he
  · intro w h1
    simp [statusOf, h1]
  · intro w h1 h2
    simp [statusOf, h1, h2]
  · intro w h1 h2 h3
    simp [statusOf, h1, h2, h3]
  · intro w h1 h2 h3
    simp [statusOf, h1, h2, h3]
  · intro rosterSeen sect s rest seenInj prev hskip
    simp only [injuryLoop]
    rw [if_pos hskip]

/-- C7 counterexample: a concrete page whose single injury entry has
detail Undisclosed with a capital U, while the claim requires the literal
lowercase string undisclosed. -/
theorem claim7_counterexample :
    (lineCombosOf ("x>Injuries<href=\"/players/news/bob/1\"").data).injuries
      = [⟨"Bob", "IR", "Undisclosed"⟩] ∧
    "Undisclosed" ≠ "undisclosed" :=
  ⟨by decide, by decide⟩

/-- C7 witness: the status theorem applied to a concrete page whose
injury section carries an OUT keyword inside the window after the token. -/
theorem claim7_injury_status_witness :
    InjuryEntry.detail ⟨"Smith", "OUT", "Undisclosed"⟩ = "Undisclosed" ∧
    (InjuryEntry.status ⟨"Smith", "OUT", "Undisclosed"⟩ = "OUT" ∨
     InjuryEntry.status ⟨"Smith", "OUT", "Undisclosed"⟩ = "DTD" ∨
     InjuryEntry.status ⟨"Smith", "OUT", "Undisclosed"⟩ = "LTIR" ∨
     InjuryEntry.status ⟨"Smith", "OUT", "Undisclosed"⟩ = "IR") :=
  claim7_injury_status.1
    ("x>Injuries<href=\"/players/news/smith/1\" he is >OUT< for the season").data
    ⟨"Smith", "OUT", "Undisclosed"⟩ (by decide)

theorem matchLogoAt_bounds (l : Buf) (len : Nat) (h : matchLogoAt l = some len) :
    1 ≤ len ∧ len ≤ l.length := by
  unfold matchLogoAt at h
  dsimp only at h
  split at h
  · rename_i hci
    have hlen10 : 10 ≤ l.length := by
      have heq : "data-src=\"".data = lowerBuf (l.take ("data-src=\"".data).length) :=
        eq_of_beq hci
      have hl : ("data-src=\"".data).length = min ("data-src=\"".data).length l.length := by
        conv_lhs => rw [heq]
        simp [lowerBuf, List.length_take]
      have h10 : ("data-src=\"".data).length = 10 := by decide
      rw [h10] at hl
      by_cases hn : 10 ≤ l.length
      · exact hn
      · rw [min_eq_right (le_of_lt (not_le.mp hn))] at hl
        omega
    split at h
    · rename_i hseg
      split at h
      · rename_i p hfh
        split at h
        · have hlen := (Option.some.inj h).symm
          have h10 : ("data-src=\"".data).length = 10 := by decide
          rw [List.length_drop] at hseg
          omega
        · simp at h
      · simp at h
    · simp at h
  · simp at h

theorem chained_mono_left (k k2 n : Nat) (xs : List (Nat × Nat)) (h : Chained k n xs)
    (hk : k2 ≤ k) : Chained k2 n xs := by
  cases xs with
  | nil => trivial
  | cons x rest =>
    obtain ⟨s, e⟩ := x
    obtain ⟨h1, h2, h3, h4⟩ := h
    exact ⟨le_trans hk h1, h2, h3, h4⟩

theorem scanLogos_chained (fuel : Nat) :
    ∀ (pos : Nat) (l : Buf), Chained pos (pos + l.length) (scanLogosF fuel pos l) := by
  induction fuel with
  | zero =>
    intro pos l
    simp [scanLogosF, Chained]
  | succ f ih =>
    intro pos l
    cases l with
    | nil => simp [scanLogosF, Chained]
    | cons c rest =>
      rcases hm : matchLogoAt (c :: rest) with _ | len
      · have hred : scanLogosF (f + 1) pos (c :: rest) = scanLogosF f (pos + 1) rest := by
          simp [scanLogosF, hm]
        rw [hred]
        have hch := ih (pos + 1) rest
        have heq : pos + 1 + rest.length = pos + (c :: rest).length := by
          simp [List.length_cons]
          omega
        rw [heq] at hch
        exact chained_mono_left _ _ _ _ hch (Nat.le_succ pos)
      · have hred : scanLogosF (f + 1) pos (c :: rest)
            = (pos, pos + len) :: scanLogosF f (pos + len) ((c :: rest).drop len) := by
          simp [scanLogosF, hm]
        rw [hred]
        obtain ⟨hb1, hb2⟩ := matchLogoAt_bounds _ _ hm
        have hch := ih (pos + len) ((c :: rest).drop len)
        have heq : pos + len + ((c :: rest).drop len).length = pos + (c :: rest).length := by
          rw [List.length_drop]
          omega
        rw [heq] at hch
        exact ⟨le_refl pos, by omega, by omega, hch⟩

theorem spliceAt_step (b Y r : Buf) (s e t : Nat) (hs : s ≤ e) (he : e ≤ t)
    (ht : t ≤ b.length) :
    spliceAt (b.take t ++ Y) s e r = b.take s ++ r ++ ((b.take t).drop e ++ Y) := by
  unfold spliceAt
  have h1 : (b.take t ++ Y).take s = b.take s := by
    rw [List.take_append_of_le_length, List.take_take, min_eq_left (le_trans hs he)]
    rw [List.length_take]
    exact le_min (le_trans hs he) (le_trans (le_trans hs he) ht)
  have h2 : (b.take t ++ Y).drop e = (b.take t).drop e ++ Y := by
    apply List.drop_append_of_le_length
    rw [List.length_take]
    exact le_min he (le_trans he ht)
  rw [h1, h2]

/-- C5: with exactly 4 logo matches the buffer is rewritten so that the
1st and 3rd matched spans carry the first team's URL and the 2nd and 4th
the second team's (each span becomes its original 10-character group-1
head, the URL, and the closing quote), every byte between and around the
spans is preserved, and no warning fires; with fewer than 4 matches the
warning fires and a replacement with the same alternation is computed for
every match present.  The replacement list is applied back to front
(applyReversed), which is what makes the recorded offsets stay valid. -/
theorem claim5_logo_backtofront :
    (∀ (content a b : Buf) (m0 m1 m2 m3 : Nat × Nat),
      findLogoMatches content = [m0, m1, m2, m3] →
      update_team_logos (some a) (some b) content
        = content.take m0.1 ++ ((content.drop m0.1).take 10 ++ a ++ ['"'])
          ++ (content.take m1.1).drop m0.2 ++ ((content.drop m1.1).take 10 ++ b ++ ['"'])
          ++ (content.take m2.1).drop m1.2 ++ ((content.drop m2.1).take 10 ++ a ++ ['"'])
          ++ (content.take m3.1).drop m2.2 ++ ((content.drop m3.1).take 10 ++ b ++ ['"'])
          ++ content.drop m3.2 ∧
      logoWarning content = false) ∧
    (∀ (content a b : Buf), (findLogoMatches content).length < 4 →
      logoWarning content = true ∧
      logoReplacements content a b (findLogoMatches content)
        = (findLogoMatches content).enum.map (fun q =>
            (q.2.1, q.2.2,
             (content.drop q.2.1).take 10 ++ (if q.1 % 2 = 0 then a else b) ++ ['"']))) := by
  constructor
  · intro content a b m0 m1 m2 m3 hm
    obtain ⟨s0, e0⟩ := m0
    obtain ⟨s1, e1⟩ := m1
    obtain ⟨s2, e2⟩ := m2
    obtain ⟨s3, e3⟩ := m3
    have hch : Chained 0 (0 + content.length) (findLogoMatches content) :=
      scanLogos_chained (content.length + 1) 0 content
    rw [hm] at hch
    rw [Nat.zero_add] at hch
    obtain ⟨h0a, h0b, h0c, h1a, h1b, h1c, h2a, h2b, h2c, h3a, h3b, h3c, -⟩ := hch
    constructor
    · show applyReversed (logoReplacements content a b (findLogoMatches content)) content = _
      rw [hm]
      have happ : applyReversed
          (logoReplacements content a b [(s0, e0), (s1, e1), (s2, e2), (s3, e3)]) content
          = spliceAt (spliceAt (spliceAt (spliceAt content s3 e3
              ((content.drop s3).take 10 ++ b ++ ['"'])) s2 e2
              ((content.drop s2).take 10 ++ a ++ ['"'])) s1 e1
              ((content.drop s1).take 10 ++ b ++ ['"'])) s0 e0
              ((content.drop s0).take 10 ++ a ++ ['"']) := rfl
      rw [happ]
      have st3 : spliceAt content s3 e3 ((content.drop s3).take 10 ++ b ++ ['"'])
          = content.take s3 ++ (((content.drop s3).take 10 ++ b ++ ['"']) ++ content.drop e3) := by
        unfold spliceAt
        rw [List.append_assoc]
      rw [st3]
      rw [spliceAt_step content _ _ s2 e2 s3 (le_of_lt h2b) h3a (by omega)]
      rw [List.append_assoc]
      rw [spliceAt_step content _ _ s1 e1 s2 (le_of_lt h1b) h2a (by omega)]
      rw [List.append_assoc]
      rw [spliceAt_step content _ _ s0 e0 s1 (le_of_lt h0b) h1a (by omega)]
      simp [List.append_assoc]
    · simp [logoWarning, hm]
  · intro content a b hlen
    constructor
    · simp [logoWarning, hlen]
    · generalize hms : findLogoMatches content = ms
      rw [hms] at hlen
      rcases ms with _ | ⟨x0, _ | ⟨x1, _ | ⟨x2, _ | ⟨x3, rest⟩⟩⟩⟩
      · rfl
      · simp [logoReplacements, logoReplacementsGo, List.enum, List.enumFrom]
      · simp [logoReplacements, logoReplacementsGo, List.enum, List.enumFrom]
      · simp [logoReplacements, logoReplacementsGo, List.enum, List.enumFrom]
      · simp at hlen
        omega

set_option maxRecDepth 100000

/-- C5 witness: the logo theorem applied to a concrete buffer holding
exactly 4 logo attributes separated by single sentinel bytes. -/
theorem claim5_logo_backtofront_witness :
    update_team_logos (some "NYRURL".data) (some "OPPURL".data)
        ("Adata-src=\"u.invisioncic.com/l.png\"Bdata-src=\"u.invisioncic.com/l.png\"Cdata-src=\"u.invisioncic.com/l.png\"Ddata-src=\"u.invisioncic.com/l.png\"E").data
      = ("Adata-src=\"u.invisioncic.com/l.png\"Bdata-src=\"u.invisioncic.com/l.png\"Cdata-src=\"u.invisioncic.com/l.png\"Ddata-src=\"u.invisioncic.com/l.png\"E").data.take 1
        ++ ((("Adata-src=\"u.invisioncic.com/l.png\"Bdata-src=\"u.invisioncic.com/l.png\"Cdata-src=\"u.invisioncic.com/l.png\"Ddata-src=\"u.invisioncic.com/l.png\"E").data.drop 1).take 10
            ++ "NYRURL".data ++ ['"'])
        ++ (("Adata-src=\"u.invisioncic.com/l.png\"Bdata-src=\"u.invisioncic.com/l.png\"Cdata-src=\"u.invisioncic.com/l.png\"Ddata-src=\"u.invisioncic.com/l.png\"E").data.take 36).drop 35
        ++ ((("Adata-src=\"u.invisioncic.com/l.png\"Bdata-src=\"u.invisioncic.com/l.png\"Cdata-src=\"u.invisioncic.com/l.png\"Ddata-src=\"u.invisioncic.com/l.png\"E").data.drop 36).take 10
            ++ "OPPURL".data ++ ['"'])
        ++ (("Adata-src=\"u.invisioncic.com/l.png\"Bdata-src=\"u.invisioncic.com/l.png\"Cdata-src=\"u.invisioncic.com/l.png\"Ddata-src=\"u.invisioncic.com/l.png\"E").data.take 71).drop 70
        ++ ((("Adata-src=\"u.invisioncic.com/l.png\"Bdata-src=\"u.invisioncic.com/l.png\"Cdata-src=\"u.invisioncic.com/l.png\"Ddata-src=\"u.invisioncic.com/l.png\"E").data.drop 71).take 10
            ++ "NYRURL".data ++ ['"'])
        ++ (("Adata-src=\"u.invisioncic.com/l.png\"Bdata-src=\"u.invisioncic.com/l.png\"Cdata-src=\"u.invisioncic.com/l.png\"Ddata-src=\"u.invisioncic.com/l.png\"E").data.take 106).drop 105
        ++ ((("Adata-src=\"u.invisioncic.com/l.png\"Bdata-src=\"u.invisioncic.com/l.png\"Cdata-src=\"u.invisioncic.com/l.png\"Ddata-src=\"u.invisioncic.com/l.png\"E").data.drop 106).take 10
            ++ "OPPURL".data ++ ['"'])
        ++ ("Adata-src=\"u.invisioncic.com/l.png\"Bdata-src=\"u.invisioncic.com/l.png\"Cdata-src=\"u.invisioncic.com/l.png\"Ddata-src=\"u.invisioncic.com/l.png\"E").data.drop 140 ∧
    logoWarning ("Adata-src=\"u.invisioncic.com/l.png\"Bdata-src=\"u.invisioncic.com/l.png\"Cdata-src=\"u.invisioncic.com/l.png\"Ddata-src=\"u.invisioncic.com/l.png\"E").data
      = false :=
  claim5_logo_backtofront.1
    ("Adata-src=\"u.invisioncic.com/l.png\"Bdata-src=\"u.invisioncic.com/l.png\"Cdata-src=\"u.invisioncic.com/l.png\"Ddata-src=\"u.invisioncic.com/l.png\"E").data
    "NYRURL".data "OPPURL".data (1, 35) (36, 70) (71, 105) (106, 140) (by decide)
